import Mathlib

/-!
Verification development for the Multi_Agent_RAG_LE repository.

The repository ships the React UI (components, `services/api.ts`) together with
deployment scripts; the FastAPI backend (`server/main.py`, holding the fragment
store, the lexical index and the agentic orchestration loop) is not part of the
checked-in sources.  UI behaviour is therefore embedded directly from the
TypeScript sources, while the backend components are modelled from the
specification, as marked on each definition.

Text is manipulated through explicit character lists (`List Char`), mirroring
the JavaScript string operations (`toLowerCase`, `trim`, `split`) used by the
sources; this keeps every definition executable by kernel reduction.
-/

namespace MultiAgentRag

/-! ## Character-list string helpers (models of the JS string operations) -/

/-- Model of JavaScript `toLowerCase()` on a character list. -/
def lowerChars (l : List Char) : List Char :=
  l.map Char.toLower

/-- Lower-cased character list of a string. -/
def strLower (s : String) : List Char :=
  lowerChars s.data

/-- Helper of `words`: accumulate the current word (reversed) while scanning. -/
def wordsAux : List Char → List Char → List (List Char)
  | [], acc => if acc.isEmpty then [] else [acc.reverse]
  | c :: cs, acc =>
    if c.isWhitespace then
      if acc.isEmpty then wordsAux cs [] else acc.reverse :: wordsAux cs []
    else
      wordsAux cs (c :: acc)

/-- Whitespace split into non-empty words. -/
def words (l : List Char) : List (List Char) :=
  wordsAux l []

/-- Model of JavaScript `trim()`: drop whitespace at both ends. -/
def trimChars (l : List Char) : List Char :=
  ((l.dropWhile Char.isWhitespace).reverse.dropWhile Char.isWhitespace).reverse

/-- Model of JavaScript `trim()` at the string level. -/
def jsTrim (s : String) : String :=
  ⟨trimChars s.data⟩

/-- Model of JavaScript `split('\n')`: splits on newlines keeping empty
segments, so it never returns an empty list. -/
def splitLines : List Char → List (List Char)
  | [] => [[]]
  | c :: cs =>
    if c = '\n' then
      [] :: splitLines cs
    else
      match splitLines cs with
      | [] => [[c]]
      | l :: ls => (c :: l) :: ls

/-! ## Data model (spec §3) -/

/-- Entity types, the fixed enumeration of the spec data model (§3). -/
inductive EntityType
  | person
  | organization
  | location
  | date
  | money
  | other
deriving DecidableEq, Repr

/-- Modelled from the spec: a Document of the Fragment Store (§3); the
`created_at` timestamp plays no role in any claim and is omitted. -/
structure Document where
  id : String
  text : String
deriving DecidableEq, Repr

/-- Modelled from the spec: a Fragment (§3) — an addressable slice of a
document with its ordinal position used for stable tie-breaks. -/
structure Fragment where
  id : String
  docId : String
  text : String
  position : Nat
deriving DecidableEq, Repr

/-- Modelled from the spec: an EntityMention (§3). -/
structure EntityMention where
  docId : String
  type : EntityType
  value : String
  sourceFragmentId : String
deriving DecidableEq, Repr

/-- Modelled from the spec: a SearchHit (§3).  The 0-based `rank` of the spec
is the index of the hit in the returned sequence; the fragment `position` is
carried so the tie-break order is visible on the hit itself. -/
structure SearchHit where
  fragmentId : String
  docId : String
  text : String
  score : Nat
  position : Nat
deriving DecidableEq, Repr

/-- Modelled from the spec: the state owned by the Fragment Store — documents,
their fragments, and cached entity mentions (§2, §3). -/
structure Store where
  docs : List Document
  fragments : List Fragment
  entities : List EntityMention
deriving DecidableEq, Repr

/-! ## Lexical index (spec §4.2, backend absent from the sources) -/

/-- Modelled from the spec: deterministic lexical tokenization (lower-cased
whitespace split) used by the lexical index (§4.2). -/
def tokenize (s : String) : List (List Char) :=
  words (strLower s)

/-- Modelled from the spec: a term-frequency style relevance score — the
number of query terms occurring in the fragment text (§4.2); the exact formula
is an implementation choice of the absent backend, only determinism and the
ordering contract matter for the claims. -/
def tfScore (query : String) (fragText : String) : Nat :=
  (tokenize query).countP (fun t => (tokenize fragText).contains t)

/-- The ranking order of the lexical index: score descending, ties broken by
fragment position ascending (§4.2). -/
def hitOrder (a b : SearchHit) : Prop :=
  b.score < a.score ∨ (a.score = b.score ∧ a.position ≤ b.position)

instance : DecidableRel hitOrder := fun a b =>
  inferInstanceAs (Decidable (b.score < a.score ∨ (a.score = b.score ∧ a.position ≤ b.position)))

instance : IsTotal SearchHit hitOrder :=
  ⟨by intro a b; unfold hitOrder; omega⟩

instance : IsTrans SearchHit hitOrder :=
  ⟨by intro a b c hab hbc; unfold hitOrder at *; omega⟩

/-- Modelled from the spec: does the document `docId` have at least one cached
EntityMention whose value case-insensitively matches one of the filter terms
(logical OR across terms, §4.2)? -/
def entityFilterMatches (st : Store) (terms : List String) (docId : String) : Bool :=
  st.entities.any (fun m =>
    m.docId == docId && terms.any (fun t => strLower t == strLower m.value))

/-- Modelled from the spec: candidate fragments for a search — all fragments,
restricted by the entity filter when one is present (§4.2). -/
def candidateFragments (st : Store) (entityFilter : Option (List String)) : List Fragment :=
  match entityFilter with
  | none => st.fragments
  | some terms => st.fragments.filter (fun fr => entityFilterMatches st terms fr.docId)

/-- Modelled from the spec: build the SearchHit for a fragment under a query. -/
def mkHit (q : String) (fr : Fragment) : SearchHit :=
  ⟨fr.id, fr.docId, fr.text, tfScore q fr.text, fr.position⟩

/-- Modelled from the spec: `search(query, k, entity_filter?)` of the absent
lexical index backend (§4.2) — score candidates, keep those with positive
relevance, order score-descending with ties by position ascending, return the
first `k`.  An empty corpus or no match yields the empty sequence. -/
def search (st : Store) (q : String) (k : Nat) (entityFilter : Option (List String)) :
    List SearchHit :=
  (List.insertionSort hitOrder
    (((candidateFragments st entityFilter).map (mkHit q)).filter (fun h => 0 < h.score))).take k

/-- Modelled from the spec: `delete(document_id)` of the Fragment Store —
removes the document and cascades to its fragments and cached entities (§4.1). -/
def deleteDoc (st : Store) (d : String) : Store :=
  { docs := st.docs.filter (fun x => x.id != d),
    fragments := st.fragments.filter (fun fr => fr.docId != d),
    entities := st.entities.filter (fun m => m.docId != d) }

/-! ## Orchestrator state machine (spec §4.4, §5; backend absent from the
sources, modelled as a pure state machine parameterized by injected capability
functions, as §9 prescribes) -/

/-- Modelled from the spec: the critique verdict (§4.4). -/
inductive Verdict
  | sufficient
  | insufficient (guidance : String)
deriving DecidableEq, Repr

/-- Modelled from the spec: the output of the Planning phase — a concrete
search query and an optional entity filter (§4.4). -/
structure QueryPlan where
  query : String
  entityFilter : Option (List String)
deriving DecidableEq, Repr

/-- Modelled from the spec: the typed failure kinds of the Failed state (§4.4,
§7). -/
inductive ErrKind
  | noRelevantDocuments
  | extractionFailed
  | generationUnavailable
deriving DecidableEq, Repr

/-- Modelled from the spec: the terminal outcome of an orchestration run
(§4.4, §5). -/
inductive Outcome
  | accepted (answer : String) (sources : List SearchHit)
  | exhausted (answer : String) (sources : List SearchHit)
  | failed (err : ErrKind)
  | cancelled
deriving DecidableEq, Repr

/-- Modelled from the spec: the three injected generation capabilities of the
orchestrator — plan, draft, critique (§9).  Each is an arbitrary function, so
every theorem over all `Capabilities` covers adversarial behaviours such as a
critique that always answers insufficient. -/
structure Capabilities where
  plan : String → String → QueryPlan
  draft : String → List SearchHit → String
  critique : String → String → Verdict

/-- Modelled from the spec: the events a streaming run emits, one per phase
transition, plus the single terminal event (§5). -/
inductive RunEvent
  | planEv (p : QueryPlan)
  | hitsEv (hs : List SearchHit)
  | draftEv (text : String)
  | critiqueEv (v : Verdict)
  | finalEv (o : Outcome)
deriving DecidableEq, Repr

/-- Modelled from the spec: add a hit to the accumulated evidence unless a hit
with the same fragment id is already present (deduplication by fragment id,
§4.4 Drafting). -/
def addHit (acc : List SearchHit) (h : SearchHit) : List SearchHit :=
  if acc.any (fun x => x.fragmentId == h.fragmentId) then acc else acc ++ [h]

/-- Modelled from the spec: accumulate newly retrieved hits into the evidence
carried across iterations (§4.4 Drafting: later iterations see strictly more
context, never less). -/
def accumulateHits (acc : List SearchHit) (new : List SearchHit) : List SearchHit :=
  new.foldl addHit acc

/-- Modelled from the spec: the score-ranked source list attached to an
Accepted or Exhausted outcome (§4.4). -/
def rankSources (acc : List SearchHit) : List SearchHit :=
  List.insertionSort hitOrder acc

/-- Modelled from the spec: the iteration loop of the orchestrator (§4.4).
Arguments after the injected capabilities, retrieval function, cancellation
test and question: remaining iteration budget, 0-based iteration index
(consulted by the cancellation test at the top of each cycle), the critique
guidance carried from the previous iteration, the accumulated deduplicated
hits, and whether any retrieval so far produced hits (for the
`NoRelevantDocuments` short-circuit).  Returns the emitted phase events and
the outcome; the caller appends the terminal event. -/
def runLoop (C : Capabilities) (retrieve : QueryPlan → List SearchHit)
    (cancel : Nat → Bool) (question : String) :
    Nat → Nat → String → List SearchHit → Bool → List RunEvent × Outcome
  | 0, _, _, acc, _ =>
    ([], .exhausted (C.draft question acc) (rankSources acc))
  | r + 1, idx, guidance, acc, anyHits =>
    if cancel idx then
      ([], .cancelled)
    else
      let p := C.plan question guidance
      let hs := retrieve p
      let acc2 := accumulateHits acc hs
      let anyHits2 := anyHits || !hs.isEmpty
      if !anyHits2 then
        ([.planEv p, .hitsEv hs], .failed .noRelevantDocuments)
      else
        let d := C.draft question acc2
        match C.critique question d with
        | .sufficient =>
          ([.planEv p, .hitsEv hs, .draftEv d, .critiqueEv .sufficient],
           .accepted d (rankSources acc2))
        | .insufficient g =>
          let rest := runLoop C retrieve cancel question r (idx + 1) g acc2 anyHits2
          (.planEv p :: .hitsEv hs :: .draftEv d :: .critiqueEv (.insufficient g) :: rest.1,
           rest.2)

/-- Modelled from the spec: one orchestration run answering a question under a
`max_iterations` budget, returning the full streaming event log (ending in the
single terminal event) together with the outcome (§4.4, §5). -/
def runAgentic (C : Capabilities) (retrieve : QueryPlan → List SearchHit)
    (cancel : Nat → Bool) (question : String) (maxIterations : Nat) :
    List RunEvent × Outcome :=
  let r := runLoop C retrieve cancel question maxIterations 0 "" [] false
  (r.1 ++ [.finalEv r.2], r.2)

/-- The streaming event log of a run. -/
def runEvents (C : Capabilities) (retrieve : QueryPlan → List SearchHit)
    (cancel : Nat → Bool) (question : String) (maxIterations : Nat) : List RunEvent :=
  (runAgentic C retrieve cancel question maxIterations).1

/-- The outcome of a run. -/
def runOutcome (C : Capabilities) (retrieve : QueryPlan → List SearchHit)
    (cancel : Nat → Bool) (question : String) (maxIterations : Nat) : Outcome :=
  (runAgentic C retrieve cancel question maxIterations).2

/-- The explicit status string carried by every response (§3 run status, §7
user-visible behaviour). -/
def statusOf : Outcome → String
  | .accepted _ _ => "answered"
  | .exhausted _ _ => "exhausted"
  | .failed _ => "failed"
  | .cancelled => "cancelled"

/-- Is an event the terminal event? -/
def isFinalEvent : RunEvent → Bool
  | .finalEv _ => true
  | _ => false

/-- Is an event a Critiquing transition? -/
def isCritiqueEvent : RunEvent → Bool
  | .critiqueEv _ => true
  | _ => false

/-- Is an event anything but a sufficient critique?  Used to state that an
exhausted run never saw a sufficient verdict. -/
def notSufficientCritique : RunEvent → Bool
  | .critiqueEv .sufficient => false
  | _ => true

/-- The phase grammar of a streaming event log, checked with a small state
counter: 0 expects a block start (`plan`) or the lone terminal event, 1
expects `hits`, 2 expects `draft` or the terminal event after the
`NoRelevantDocuments` short-circuit, 3 expects `critique`.  Acceptance means
the events appear in the strict chronological phase order of §5 and the log
ends with exactly one terminal event. -/
def phaseOrderOk : Nat → List RunEvent → Bool
  | 0, [.finalEv _] => true
  | 0, .planEv _ :: rest => phaseOrderOk 1 rest
  | 1, .hitsEv _ :: rest => phaseOrderOk 2 rest
  | 2, [.finalEv _] => true
  | 2, .draftEv _ :: rest => phaseOrderOk 3 rest
  | 3, .critiqueEv _ :: rest => phaseOrderOk 0 rest
  | _, _ => false

example :
    runAgentic
      ⟨fun _ _ => ⟨"q", none⟩, fun _ _ => "draft", fun _ _ => .insufficient "more"⟩
      (fun _ => [⟨"f1", "a", "t", 1, 0⟩]) (fun _ => false) "question" 1
      = ([.planEv ⟨"q", none⟩, .hitsEv [⟨"f1", "a", "t", 1, 0⟩], .draftEv "draft",
          .critiqueEv (.insufficient "more"),
          .finalEv (.exhausted "draft" [⟨"f1", "a", "t", 1, 0⟩])],
         .exhausted "draft" [⟨"f1", "a", "t", 1, 0⟩]) := by decide

example :
    runOutcome
      ⟨fun _ _ => ⟨"q", none⟩, fun _ _ => "draft", fun _ _ => .insufficient "more"⟩
      (fun _ => []) (fun _ => false) "question" 3
      = .failed .noRelevantDocuments := by decide

/-! ## `ApiService.askAgentic` / `askAgenticStream`
(src/react-ui/src/services/api.ts, lines 16–26) -/

/-- The query-string payload of an agentic request built by the client. -/
structure AgenticRequest where
  q : String
  maxIterations : Int
deriving DecidableEq, Repr

/-- Embedding of `ApiService.askAgentic(query, maxIterations = 5)`
(api.ts:16-20): the TypeScript default parameter is modelled as an optional
argument defaulting to 5; the function puts `q` and `max_iterations` in the
request unchanged. -/
def askAgenticRequest (query : String) (maxIterations : Option Int) : AgenticRequest :=
  ⟨query, maxIterations.getD 5⟩

/-- Embedding of `ApiService.askAgenticStream(query, maxIterations = 5)`
(api.ts:22-26), identical request shape against the streaming route. -/
def askAgenticStreamRequest (query : String) (maxIterations : Option Int) : AgenticRequest :=
  ⟨query, maxIterations.getD 5⟩

/-- Embedding of the `ApiService.askAgentic(query)` call in
`App.handleSearch` (App.tsx:52): the second argument is omitted. -/
def appHandleSearchRequest (query : String) : AgenticRequest :=
  askAgenticRequest query none

/-- Embedding of the `ApiService.askAgentic(userMessage.content)` call in
`ChatInterface.handleSubmit` (SearchSection.tsx:176): the second argument is
omitted. -/
def chatAskRequest (content : String) : AgenticRequest :=
  askAgenticRequest content none

/-! ## `ResultsSection.renderSearchResults`
(src/react-ui/src/components/ResultsSection.tsx, lines 10–79) -/

/-- A source entry of an agentic response as the UI consumes it
(`doc_id`, `content`, `score`). -/
structure AgenticSource where
  docId : String
  content : String
  score : Nat
deriving DecidableEq, Repr

/-- The agentic response payload as `renderSearchResults` reads it: the
component receives `results: any` and accesses only `answer` and `sources`;
the `status` field the backend response carries is never read. -/
structure AgenticResponse where
  status : String
  answer : Option String
  sources : List AgenticSource
deriving DecidableEq, Repr

/-- The two payload shapes `renderSearchResults` distinguishes: an agentic
response object or a plain array of fragments. -/
inductive SearchResults
  | agentic (r : AgenticResponse)
  | fragments (items : List AgenticSource)
deriving DecidableEq, Repr

/-- The user-visible content produced by `renderSearchResults`: nothing, an
agentic answer (its lines, from `answer.split('\n')`, plus the sources block),
or the plain fragment list. -/
inductive RenderedResults
  | noRender
  | agenticAnswer (answerLines : List (List Char)) (sources : List AgenticSource)
  | fragmentList (items : List AgenticSource)
deriving DecidableEq, Repr

/-- Embedding of `renderSearchResults` (ResultsSection.tsx:10-79): returns
null when there is neither a truthy `answer` nor a non-empty array; renders
the agentic block from `answer` and `sources` alone (the `status` field is not
consulted); otherwise renders the fragment array. -/
def renderSearchResults : SearchResults → RenderedResults
  | .agentic r =>
    match r.answer with
    | some a => if a.data.isEmpty then .noRender else .agenticAnswer (splitLines a.data) r.sources
    | none => .noRender
  | .fragments items =>
    if items.isEmpty then .noRender else .fragmentList items

/-! ## `ChatInterface.handleSubmit`
(src/react-ui/src/components/SearchSection.tsx, lines 159–199) -/

/-- The two chat roles. -/
inductive MessageRole
  | user
  | assistant
deriving DecidableEq, Repr

/-- A chat message as kept in the `messages` state (the `timestamp` is the
`Date.now()` value also used to build the id). -/
structure ChatMessage where
  id : String
  role : MessageRole
  content : String
  sources : List AgenticSource
deriving DecidableEq, Repr

/-- The component state `handleSubmit` reads and writes. -/
structure ChatState where
  messages : List ChatMessage
  inputValue : String
  isLoading : Bool
deriving DecidableEq, Repr

/-- The result of the awaited `ApiService.askAgentic` call: a response payload
on fulfilment (whose `answer` and `sources` fields may each be absent), or a
rejection. -/
structure AskResult where
  answer : Option String
  sources : Option (List AgenticSource)
deriving DecidableEq, Repr

/-- The fallback answer text of SearchSection.tsx:181. -/
def fallbackAnswerText : String :=
  "Извините, не удалось получить ответ."

/-- The chat error text of SearchSection.tsx:192. -/
def chatErrorText : String :=
  "Извините, произошла ошибка при обработке вашего запроса. Проверьте подключение к API."

/-- The assistant message content: `result.answer || fallback` on success
(JavaScript `||`, so an empty answer also falls back), the error text on
rejection. -/
def assistantContent : Except Unit AskResult → String
  | .ok r =>
    match r.answer with
    | some a => if a.data.isEmpty then fallbackAnswerText else a
    | none => fallbackAnswerText
  | .error _ => chatErrorText

/-- The assistant message sources: `result.sources || []` on success, none on
rejection. -/
def assistantSources : Except Unit AskResult → List AgenticSource
  | .ok r => r.sources.getD []
  | .error _ => []

/-- The user message appended first (SearchSection.tsx:163-170): id from
`Date.now()`, the trimmed input as content. -/
def chatUserMessage (st : ChatState) (now : Nat) : ChatMessage :=
  ⟨toString now, .user, jsTrim st.inputValue, []⟩

/-- State after the first `setMessages`/`setInputValue`/`setIsLoading` group
(SearchSection.tsx:170-172): the user message is appended, the input cleared,
loading set. -/
def chatAfterSend (st : ChatState) (now : Nat) : ChatState :=
  { messages := st.messages ++ [chatUserMessage st now],
    inputValue := "",
    isLoading := true }

/-- The assistant message appended when the awaited call settles
(SearchSection.tsx:178-195): id `Date.now() + 1`, content and sources from the
result or the error text. -/
def chatAssistantMessage (now : Nat) (result : Except Unit AskResult) : ChatMessage :=
  ⟨toString (now + 1), .assistant, assistantContent result, assistantSources result⟩

/-- State after the second `setMessages` and the `finally` block
(SearchSection.tsx:186-198): the assistant message is appended and loading
cleared. -/
def chatAfterReply (st : ChatState) (now : Nat) (result : Except Unit AskResult) : ChatState :=
  { st with
    messages := st.messages ++ [chatAssistantMessage now result],
    isLoading := false }

/-- Embedding of the whole `handleSubmit` processing of one submission
(SearchSection.tsx:159-199), given the eventual settlement `result` of the
awaited call: the guard of line 161 rejects an empty-after-trim input or a
submission while loading; otherwise the two state updates run in order. -/
def handleChatSubmit (st : ChatState) (now : Nat) (result : Except Unit AskResult) : ChatState :=
  if (jsTrim st.inputValue).data.isEmpty || st.isLoading then st
  else chatAfterReply (chatAfterSend st now) now result

/-! ## `DocumentSidebar.handleFileUpload`
(src/unnamed/part_004, lines 67–120) -/

/-- An uploaded file as the handler sees it: its name, used to classify it;
its bytes stay behind the injected extraction capability. -/
structure UploadFile where
  name : String
deriving DecidableEq, Repr

/-- Embedding of the text-like classification of part_004:76-83: a file whose
lower-cased name ends in one of the listed text extensions is sent in the
batch; everything else goes through server-side text extraction. -/
def isTextLike (f : UploadFile) : Bool :=
  let n : String := ⟨lowerChars f.name.data⟩
  n.endsWith ".txt" || n.endsWith ".md" || n.endsWith ".rtf" || n.endsWith ".csv" ||
    n.endsWith ".json" || n.endsWith ".xml" || n.endsWith ".html"

/-- A user-facing notification (`showNotification`). -/
inductive Notification
  | success (msg : String)
  | failure (msg : String)
deriving DecidableEq, Repr

/-- The observable result of one `handleFileUpload` call: the notifications
shown, the batch ingest count when the batch call ran and succeeded, the
binary files whose extracted text was ingested, and whether a user-facing
error was surfaced. -/
structure UploadOutcome where
  notifications : List Notification
  batchCount : Option Nat
  ingestedBinaries : List UploadFile
  userFacingError : Bool
deriving DecidableEq, Repr

/-- Embedding of the per-file loop of part_004:91-104: for each binary file,
`extractText` is awaited inside a per-file try/catch — a failure is logged and
the loop continues; on success, a blank extracted text is skipped with a
warning, otherwise the text is ingested (an ingest failure is caught by the
same per-file catch).  Returns the files actually ingested, in order. -/
def ingestBinaries (extractText : UploadFile → Except Unit String)
    (ingestText : UploadFile → String → Except Unit Unit) :
    List UploadFile → List UploadFile
  | [] => []
  | f :: fs =>
    match extractText f with
    | .error _ => ingestBinaries extractText ingestText fs
    | .ok t =>
      if (trimChars t.data).isEmpty then
        ingestBinaries extractText ingestText fs
      else
        match ingestText f t with
        | .error _ => ingestBinaries extractText ingestText fs
        | .ok _ => f :: ingestBinaries extractText ingestText fs

/-- The error notification text of part_004:116. -/
def uploadErrorText : String :=
  "Ошибка при загрузке файлов"

/-- The auto-extract notification text of part_004:108. -/
def autoExtractText : String :=
  "Извлечение сущностей включено. Можно запустить его в соответствующем разделе."

/-- The batch success notification of part_004:87. -/
def batchSuccessText (n : Nat) : String :=
  "Загружено текстовых: " ++ toString n

/-- Embedding of `handleFileUpload` (part_004:67-120): empty selections
return immediately; text-like files are sent as one batch (a batch failure
falls to the outer catch, which shows the error notification and skips the
rest); binary files are processed by the per-file loop; the auto-extract
checkbox only adds a notification. -/
def handleFileUpload (ingestBatch : List UploadFile → Except Unit Nat)
    (extractText : UploadFile → Except Unit String)
    (ingestText : UploadFile → String → Except Unit Unit)
    (autoExtract : Bool) (files : List UploadFile) : UploadOutcome :=
  if files.isEmpty then
    ⟨[], none, [], false⟩
  else
    let textLike := files.filter isTextLike
    let binaryLike := files.filter (fun f => !isTextLike f)
    if textLike.isEmpty then
      let ingested := ingestBinaries extractText ingestText binaryLike
      ⟨if autoExtract then [.success autoExtractText] else [], none, ingested, false⟩
    else
      match ingestBatch textLike with
      | .error _ => ⟨[.failure uploadErrorText], none, [], true⟩
      | .ok n =>
        let ingested := ingestBinaries extractText ingestText binaryLike
        ⟨.success (batchSuccessText n) ::
            (if autoExtract then [.success autoExtractText] else []),
         some n, ingested, false⟩

/-- The condition under which one binary file ends up ingested: its extraction
succeeds with a non-blank text and its ingest call succeeds.  Used to state
that each binary file is processed independently of the others. -/
def binaryIngested (extractText : UploadFile → Except Unit String)
    (ingestText : UploadFile → String → Except Unit Unit) (f : UploadFile) : Bool :=
  match extractText f with
  | .error _ => false
  | .ok t =>
    if (trimChars t.data).isEmpty then false
    else
      match ingestText f t with
      | .error _ => false
      | .ok _ => true

/-! ## `readTextWithEncodingDetection`
(src/react-ui/src/components/LangExtractSection.tsx, lines 157–183) -/

/-- The encoding candidates of LangExtractSection.tsx:159, in their fixed
order. -/
def encodingCandidates : List String :=
  ["utf-8", "windows-1251", "cp1251", "koi8-r", "iso-8859-1"]

/-- The number of suspicious characters of a decoded text, per the regex
`/[�?]/g` of LangExtractSection.tsx:166: the replacement character U+FFFD and
the question mark. -/
def suspiciousCount (t : List Char) : Nat :=
  t.countP (fun c => c == '�' || c == '?')

/-- The acceptance test of LangExtractSection.tsx:166-170:
`suspiciousRatio < 0.05 && text.length > 0`, with the ratio
`suspiciousCount / length` compared exactly (0.05 = 1/20, so the test is
`20 * suspiciousCount < length`). -/
def encodingAccepts (t : List Char) : Bool :=
  20 * suspiciousCount t < t.length && 0 < t.length

/-- The candidate loop of `readTextWithEncodingDetection`
(LangExtractSection.tsx:161-178): each decode attempt may reject (modelled as
`none`) — then the next encoding is tried; an accepted decode is returned; a
decode failing the acceptance test also falls through to the next encoding;
when the list is spent the UTF-8 decode is returned as fallback
(LangExtractSection.tsx:182). -/
def detectLoop (decode : String → Option (List Char)) : List String → Option (List Char)
  | [] => decode "utf-8"
  | e :: es =>
    match decode e with
    | none => detectLoop decode es
    | some t => if encodingAccepts t then some t else detectLoop decode es

/-- Embedding of `readTextWithEncodingDetection` (LangExtractSection.tsx:157-183). -/
def readTextWithEncodingDetection (decode : String → Option (List Char)) :
    Option (List Char) :=
  detectLoop decode encodingCandidates

/-- The claim's description of encoding detection, stated independently of the
loop: the first decode in the candidate order that is non-empty and whose
suspicious-character ratio is below 0.05; when no encoding qualifies, the
UTF-8 decode as fallback. -/
def encodingDetectionSpec (decode : String → Option (List Char)) :
    Option (List Char) :=
  match encodingCandidates.findSome?
      (fun e => (decode e).filter (fun t => 0 < t.length && 20 * suspiciousCount t < t.length)) with
  | some t => some t
  | none => decode "utf-8"

/-! ## Concrete inputs used by the witnesses -/

/-- A concrete hit used by the witnesses. -/
def demoHit : SearchHit :=
  ⟨"f1", "a", "acme pact", 1, 0⟩

/-- Concrete capabilities whose critique always answers insufficient. -/
def demoCaps : Capabilities :=
  ⟨fun _ _ => ⟨"acme", none⟩, fun _ _ => "Best effort draft.",
   fun _ _ => .insufficient "need more"⟩

/-- A concrete retrieval function returning one hit. -/
def demoRetrieve : QueryPlan → List SearchHit :=
  fun _ => [demoHit]

/-- A cancellation test that never fires. -/
def noCancel : Nat → Bool :=
  fun _ => false

/-- A concrete store with one document, one fragment and one cached entity. -/
def demoStore : Store :=
  { docs := [⟨"a", "acme pact"⟩],
    fragments := [⟨"f1", "a", "acme pact", 0⟩],
    entities := [⟨"a", .organization, "Acme", "f1"⟩] }

/-- A concrete chat state with a pending non-empty input. -/
def demoChatState : ChatState :=
  ⟨[], " hello ", false⟩

/-- A concrete successful ask result. -/
def demoAskResult : AskResult :=
  ⟨some "An answer", some []⟩

/-! ## Helper lemmas -/

theorem runLoop_bound (C : Capabilities) (retrieve : QueryPlan → List SearchHit)
    (cancel : Nat → Bool) (question : String) :
    ∀ (r idx : Nat) (g : String) (acc : List SearchHit) (anyHits : Bool),
      (runLoop C retrieve cancel question r idx g acc anyHits).1.countP isCritiqueEvent ≤ r ∧
      (runLoop C retrieve cancel question r idx g acc anyHits).1.length ≤ 4 * r := by
  intro r
  induction r with
  | zero =>
    intro idx g acc anyHits
    simp [runLoop]
  | succ r ih =>
    intro idx g acc anyHits
    simp only [runLoop]
    split
    · simp
    · split
      · simp [List.countP_cons, isCritiqueEvent]
        omega
      · split
        · simp [List.countP_cons, isCritiqueEvent]
        · rename_i gd heq
          have h := ih (idx + 1) gd
            (accumulateHits acc (retrieve (C.plan question g)))
            (anyHits || !(retrieve (C.plan question g)).isEmpty)
          simp [List.countP_cons, isCritiqueEvent]
          omega

theorem runLoop_no_final (C : Capabilities) (retrieve : QueryPlan → List SearchHit)
    (cancel : Nat → Bool) (question : String) :
    ∀ (r idx : Nat) (g : String) (acc : List SearchHit) (anyHits : Bool),
      ∀ e ∈ (runLoop C retrieve cancel question r idx g acc anyHits).1,
        isFinalEvent e = false := by
  intro r
  induction r with
  | zero =>
    intro idx g acc anyHits e he
    simp [runLoop] at he
  | succ r ih =>
    intro idx g acc anyHits e he
    simp only [runLoop] at he
    split at he
    · simp at he
    · split at he
      · simp only [List.mem_cons, List.not_mem_nil, or_false] at he
        rcases he with h | h <;> simp [h, isFinalEvent]
      · split at he
        · simp only [List.mem_cons, List.not_mem_nil, or_false] at he
          rcases he with h | h | h | h <;> simp [h, isFinalEvent]
        · rename_i gd heq
          simp only [List.mem_cons] at he
          rcases he with h | h | h | h | h
          · simp [h, isFinalEvent]
          · simp [h, isFinalEvent]
          · simp [h, isFinalEvent]
          · simp [h, isFinalEvent]
          · exact ih (idx + 1) gd
              (accumulateHits acc (retrieve (C.plan question g)))
              (anyHits || !(retrieve (C.plan question g)).isEmpty) e h

theorem runLoop_phase (C : Capabilities) (retrieve : QueryPlan → List SearchHit)
    (cancel : Nat → Bool) (question : String) :
    ∀ (r idx : Nat) (g : String) (acc : List SearchHit) (anyHits : Bool) (o : Outcome),
      phaseOrderOk 0 ((runLoop C retrieve cancel question r idx g acc anyHits).1
        ++ [RunEvent.finalEv o]) = true := by
  intro r
  induction r with
  | zero =>
    intro idx g acc anyHits o
    simp [runLoop, phaseOrderOk]
  | succ r ih =>
    intro idx g acc anyHits o
    simp only [runLoop]
    split
    · simp [phaseOrderOk]
    · split
      · simp [phaseOrderOk]
      · split
        · simp [phaseOrderOk]
        · rename_i gd heq
          simp only [List.cons_append, phaseOrderOk]
          exact ih (idx + 1) gd
            (accumulateHits acc (retrieve (C.plan question g)))
            (anyHits || !(retrieve (C.plan question g)).isEmpty) o

theorem runLoop_exhausted_no_sufficient (C : Capabilities)
    (retrieve : QueryPlan → List SearchHit) (cancel : Nat → Bool) (question : String) :
    ∀ (r idx : Nat) (g : String) (acc : List SearchHit) (anyHits : Bool)
      (a : String) (s : List SearchHit),
      (runLoop C retrieve cancel question r idx g acc anyHits).2 = .exhausted a s →
      (runLoop C retrieve cancel question r idx g acc anyHits).1.all
        notSufficientCritique = true := by
  intro r
  induction r with
  | zero =>
    intro idx g acc anyHits a s _
    simp [runLoop]
  | succ r ih =>
    intro idx g acc anyHits a s hout
    by_cases hc : cancel idx = true
    · simp [runLoop, hc] at hout
    · by_cases hz : (anyHits || !(retrieve (C.plan question g)).isEmpty) = true
      · rcases hv : C.critique question
            (C.draft question (accumulateHits acc (retrieve (C.plan question g))))
          with _ | gd
        · simp [runLoop, hc, hz, hv] at hout
        · have hrec := ih (idx + 1) gd
            (accumulateHits acc (retrieve (C.plan question g))) true a s
          simp [runLoop, hc, hz, hv, notSufficientCritique] at hout ⊢
          exact List.all_eq_true.mp (hrec hout)
      · simp [runLoop, hc, hz] at hout

theorem mem_search_candidates (st : Store) (q : String) (k : Nat)
    (entityFilter : Option (List String)) (h : SearchHit)
    (hmem : h ∈ search st q k entityFilter) :
    ∃ fr ∈ candidateFragments st entityFilter, mkHit q fr = h := by
  unfold search at hmem
  have h2 := (List.take_sublist k _).subset hmem
  have h3 := (List.perm_insertionSort hitOrder _).subset h2
  rw [List.mem_filter] at h3
  obtain ⟨h4, _⟩ := h3
  rw [List.mem_map] at h4
  obtain ⟨fr, hfr, heq⟩ := h4
  exact ⟨fr, hfr, heq⟩

theorem mem_candidateFragments (st : Store) (entityFilter : Option (List String))
    (fr : Fragment) (hmem : fr ∈ candidateFragments st entityFilter) :
    fr ∈ st.fragments := by
  cases entityFilter with
  | none => exact hmem
  | some terms =>
    simp only [candidateFragments] at hmem
    exact List.filter_subset' _ hmem

theorem ingestBinaries_eq_filter (extractText : UploadFile → Except Unit String)
    (ingestText : UploadFile → String → Except Unit Unit) :
    ∀ files, ingestBinaries extractText ingestText files
      = files.filter (binaryIngested extractText ingestText) := by
  intro files
  induction files with
  | nil => rfl
  | cons f fs ih =>
    rcases hx : extractText f with e | t
    · simp [ingestBinaries, List.filter_cons, binaryIngested, hx, ih]
    · by_cases ht : (trimChars t.data).isEmpty = true
      · simp [ingestBinaries, List.filter_cons, binaryIngested, hx, ht, ih]
      · rcases hi : ingestText f t with e | u
        · simp [ingestBinaries, List.filter_cons, binaryIngested, hx, ht, hi, ih]
        · simp [ingestBinaries, List.filter_cons, binaryIngested, hx, ht, hi, ih]

theorem detectLoop_eq_first_qualifying (decode : String → Option (List Char)) :
    ∀ es, detectLoop decode es
      = (match es.findSome?
            (fun e => (decode e).filter
              (fun t => 0 < t.length && 20 * suspiciousCount t < t.length)) with
         | some t => some t
         | none => decode "utf-8") := by
  intro es
  induction es with
  | nil => rfl
  | cons e es ih =>
    simp only [detectLoop, List.findSome?_cons]
    rcases hd : decode e with _ | t
    · simpa using ih
    · by_cases ha : encodingAccepts t = true
      · have hp : (0 < t.length && 20 * suspiciousCount t < t.length) = true := by
          unfold encodingAccepts at ha
          rw [Bool.and_comm] at ha
          exact ha
        simp [Option.filter, ha, hp]
      · have hp : (0 < t.length && 20 * suspiciousCount t < t.length) = false := by
          unfold encodingAccepts at ha
          rw [Bool.and_comm] at ha
          simpa using ha
        simp [Option.filter, ha, hp, ih]

/-! ## Claim theorems -/

/-- C1: for every question and every behaviour of the injected critique
capability — quantifying over all `Capabilities` covers a critique that always
answers "insufficient" — and every retrieval and cancellation behaviour, an
orchestration run emits at most `max_iterations` Critiquing transitions, and
its whole event log (iteration blocks, the Retrieving short-circuit check
block, and the terminal event) is a finite list of length at most
`4 * max_iterations + 1`; the bound is independent of what the generation
capabilities return because they are universally quantified. -/
theorem orchestration_iteration_bound (C : Capabilities)
    (retrieve : QueryPlan → List SearchHit) (cancel : Nat → Bool)
    (question : String) (maxIterations : Nat) :
    (runEvents C retrieve cancel question maxIterations).countP isCritiqueEvent
        ≤ maxIterations ∧
    (runEvents C retrieve cancel question maxIterations).length
        ≤ 4 * maxIterations + 1 := by
  obtain ⟨h1, h2⟩ := runLoop_bound C retrieve cancel question maxIterations 0 "" [] false
  unfold runEvents runAgentic
  constructor
  · simp only [List.countP_append, List.countP_cons, List.countP_nil, isCritiqueEvent]
    simp
    omega
  · simp only [List.length_append, List.length_cons, List.length_nil]
    omega

/-- C2: `search(q, k)` returns at most `k` hits, ordered score-descending with
ties broken by fragment position ascending (`hitOrder` pairwise along the
result), and — being a pure function of the query, the bound and the index
state — repeated calls against an unchanged index return the identical
sequence. -/
theorem search_topk_sorted_deterministic (st : Store) (q : String) (k : Nat)
    (entityFilter : Option (List String)) :
    (search st q k entityFilter).length ≤ k ∧
    List.Pairwise hitOrder (search st q k entityFilter) ∧
    search st q k entityFilter = search st q k entityFilter := by
  refine ⟨?_, ?_, rfl⟩
  · unfold search
    rw [List.length_take]
    exact Nat.min_le_left _ _
  · unfold search
    exact List.Pairwise.sublist (List.take_sublist _ _)
      (List.sorted_insertionSort hitOrder _)

/-- C3 counterexample: `renderSearchResults` never reads the `status` field of
the response, so the user-visible rendering of an Exhausted response carrying
an answer is identical to that of an Accepted one with the same answer — the
claimed user-visible distinguishability fails on the cited UI code. -/
theorem exhausted_render_indistinguishable :
    renderSearchResults (.agentic ⟨"exhausted", some "Best effort draft.", []⟩)
      = renderSearchResults (.agentic ⟨"answered", some "Best effort draft.", []⟩) := rfl

/-- C3 (amended): every outcome of a run carries an explicit status, the
status of an Exhausted outcome differs from that of an Accepted one, and a run
whose outcome is Exhausted never saw a sufficient critique verdict in its
event log — had an Accepted state been reached first, the run would have ended
as Accepted, so Exhausted is never returned after an acceptance. -/
theorem run_status_explicit_and_exhausted_only_without_accept (C : Capabilities)
    (retrieve : QueryPlan → List SearchHit) (cancel : Nat → Bool)
    (question : String) (maxIterations : Nat) (a : String) (s : List SearchHit)
    (h : runOutcome C retrieve cancel question maxIterations = .exhausted a s) :
    statusOf (runOutcome C retrieve cancel question maxIterations) = "exhausted" ∧
    statusOf (Outcome.exhausted a s) ≠ statusOf (Outcome.accepted a s) ∧
    (runEvents C retrieve cancel question maxIterations).all notSufficientCritique
      = true := by
  refine ⟨by simp [h, statusOf], by simp [statusOf], ?_⟩
  have h' : (runLoop C retrieve cancel question maxIterations 0 "" [] false).2
      = .exhausted a s := h
  have hall := runLoop_exhausted_no_sufficient C retrieve cancel question
    maxIterations 0 "" [] false a s h'
  show ((runLoop C retrieve cancel question maxIterations 0 "" [] false).1
      ++ [RunEvent.finalEv
            (runLoop C retrieve cancel question maxIterations 0 "" [] false).2]).all
      notSufficientCritique = true
  rw [List.all_append, hall]
  simp [notSufficientCritique]

/-- C3 witness: a run with an always-insufficient critique and budget 1 ends
Exhausted; the amended theorem instantiated there. -/
theorem run_status_witness :
    statusOf (runOutcome demoCaps demoRetrieve noCancel "q" 1) = "exhausted" ∧
    statusOf (Outcome.exhausted "Best effort draft." [demoHit])
      ≠ statusOf (Outcome.accepted "Best effort draft." [demoHit]) ∧
    (runEvents demoCaps demoRetrieve noCancel "q" 1).all notSufficientCritique
      = true :=
  run_status_explicit_and_exhausted_only_without_accept demoCaps demoRetrieve
    noCancel "q" 1 "Best effort draft." [demoHit] (by decide)

/-- C4: in `handleFileUpload`, a failure of server-side text extraction on one
binary file never blocks ingestion — the files actually ingested are exactly
the binary files whose own extraction and ingest succeed with non-blank text
(each file independent of the others, failing files skipped), and both the
user-facing error flag and the notifications shown are independent of the
extraction/ingest behaviour, so an extraction failure never surfaces as a
user-facing failure. -/
theorem upload_extraction_failure_never_blocks
    (ingestBatch : List UploadFile → Except Unit Nat)
    (extractText extractText2 : UploadFile → Except Unit String)
    (ingestText ingestText2 : UploadFile → String → Except Unit Unit)
    (autoExtract : Bool) (files : List UploadFile) :
    (handleFileUpload ingestBatch extractText ingestText autoExtract files).ingestedBinaries
      = (if (handleFileUpload ingestBatch extractText ingestText autoExtract
              files).userFacingError
         then []
         else (files.filter (fun f => !isTextLike f)).filter
            (binaryIngested extractText ingestText)) ∧
    (handleFileUpload ingestBatch extractText ingestText autoExtract
        files).userFacingError
      = (handleFileUpload ingestBatch extractText2 ingestText2 autoExtract
          files).userFacingError ∧
    (handleFileUpload ingestBatch extractText ingestText autoExtract
        files).notifications
      = (handleFileUpload ingestBatch extractText2 ingestText2 autoExtract
          files).notifications := by
  unfold handleFileUpload
  by_cases he : files.isEmpty = true
  · rw [List.isEmpty_iff] at he
    subst he
    simp
  · by_cases ht : (files.filter isTextLike).isEmpty = true
    · simp [he, ht, ingestBinaries_eq_filter]
    · rcases hb : ingestBatch (files.filter isTextLike) with e | n
      · simp [he, ht, hb]
      · simp [he, ht, hb, ingestBinaries_eq_filter]

/-- C5: with an entity filter present, every returned hit references a
document having at least one cached EntityMention whose value
case-insensitively matches at least one filter term; an empty corpus or a
filter matching no document yields the empty sequence — `search` is total and
never errors. -/
theorem entity_filter_restricts_and_is_total (st : Store) (q : String) (k : Nat)
    (terms : List String) :
    (∀ h ∈ search st q k (some terms),
        ∃ m ∈ st.entities, m.docId = h.docId ∧
          ∃ t ∈ terms, strLower t = strLower m.value) ∧
    (st.fragments = [] → search st q k (some terms) = []) ∧
    ((∀ fr ∈ st.fragments, entityFilterMatches st terms fr.docId = false) →
      search st q k (some terms) = []) := by
  refine ⟨?_, ?_, ?_⟩
  · intro h hmem
    obtain ⟨fr, hfr, heq⟩ := mem_search_candidates st q k (some terms) h hmem
    simp only [candidateFragments] at hfr
    rw [List.mem_filter] at hfr
    obtain ⟨hfrmem, hflt⟩ := hfr
    unfold entityFilterMatches at hflt
    rw [List.any_eq_true] at hflt
    obtain ⟨m, hm, hcond⟩ := hflt
    rw [Bool.and_eq_true] at hcond
    obtain ⟨hdoc, hterm⟩ := hcond
    rw [List.any_eq_true] at hterm
    obtain ⟨t, ht, hteq⟩ := hterm
    refine ⟨m, hm, ?_, t, ht, ?_⟩
    · rw [← heq]
      exact beq_iff_eq.mp hdoc
    · exact beq_iff_eq.mp hteq
  · intro h
    unfold search
    simp [candidateFragments, h, List.insertionSort]
  · intro hflt
    have hnil : st.fragments.filter (fun fr => entityFilterMatches st terms fr.docId)
        = [] := by
      rw [List.filter_eq_nil_iff]
      intro fr hfr
      simp [hflt fr hfr]
    unfold search
    simp [candidateFragments, hnil, List.insertionSort]

/-- C5 witness: a store with one document tagged `Acme` and the filter term
`ACME`; the hit returned by the filtered search references a document with a
case-insensitively matching mention. -/
theorem entity_filter_witness :
    ∃ m ∈ demoStore.entities, m.docId = demoHit.docId ∧
      ∃ t ∈ ["ACME"], strLower t = strLower m.value :=
  (entity_filter_restricts_and_is_total demoStore "acme" 5 ["ACME"]).1 demoHit
    (by decide)

/-- C6: the streaming event log of every run follows the strict chronological
phase grammar (plan, hits, draft, critique blocks, in order, built append-only
left to right), is a finite list, and contains exactly one terminal event —
its last element — whose status is one of answered (Accepted), exhausted,
failed or cancelled. -/
theorem streaming_trace_structure (C : Capabilities)
    (retrieve : QueryPlan → List SearchHit) (cancel : Nat → Bool)
    (question : String) (maxIterations : Nat) :
    phaseOrderOk 0 (runEvents C retrieve cancel question maxIterations) = true ∧
    ∃ pre o, runEvents C retrieve cancel question maxIterations
        = pre ++ [RunEvent.finalEv o] ∧
      (∀ e ∈ pre, isFinalEvent e = false) ∧
      (statusOf o = "answered" ∨ statusOf o = "exhausted" ∨
        statusOf o = "failed" ∨ statusOf o = "cancelled") := by
  constructor
  · exact runLoop_phase C retrieve cancel question maxIterations 0 "" [] false _
  · refine ⟨(runLoop C retrieve cancel question maxIterations 0 "" [] false).1,
      (runLoop C retrieve cancel question maxIterations 0 "" [] false).2, rfl,
      runLoop_no_final C retrieve cancel question maxIterations 0 "" [] false, ?_⟩
    cases (runLoop C retrieve cancel question maxIterations 0 "" [] false).2 <;>
      simp [statusOf]

/-- C6 witness: the structure theorem instantiated at a concrete run. -/
theorem streaming_trace_witness :
    phaseOrderOk 0 (runEvents demoCaps demoRetrieve noCancel "q" 2) = true ∧
    ∃ pre o, runEvents demoCaps demoRetrieve noCancel "q" 2
        = pre ++ [RunEvent.finalEv o] ∧
      (∀ e ∈ pre, isFinalEvent e = false) ∧
      (statusOf o = "answered" ∨ statusOf o = "exhausted" ∨
        statusOf o = "failed" ∨ statusOf o = "cancelled") :=
  streaming_trace_structure demoCaps demoRetrieve noCancel "q" 2

/-- C7: after `delete(d)`, no search — for any query, bound and entity filter —
returns a hit referencing `d`, and the deletion cascades: no fragment, no
cached entity and no document of the resulting store references `d`. -/
theorem delete_cascades_and_search_never_returns_deleted (st : Store) (d : String)
    (q : String) (k : Nat) (entityFilter : Option (List String)) :
    (∀ h ∈ search (deleteDoc st d) q k entityFilter, h.docId ≠ d) ∧
    (∀ fr ∈ (deleteDoc st d).fragments, fr.docId ≠ d) ∧
    (∀ m ∈ (deleteDoc st d).entities, m.docId ≠ d) ∧
    (∀ doc ∈ (deleteDoc st d).docs, doc.id ≠ d) := by
  have hfr : ∀ fr ∈ (deleteDoc st d).fragments, fr.docId ≠ d := by
    intro fr hmem
    simp only [deleteDoc, List.mem_filter] at hmem
    exact bne_iff_ne.mp hmem.2
  refine ⟨?_, hfr, ?_, ?_⟩
  · intro h hmem
    obtain ⟨fr, hfrc, heq⟩ := mem_search_candidates (deleteDoc st d) q k entityFilter h hmem
    have hmem2 := mem_candidateFragments _ _ _ hfrc
    have hne := hfr fr hmem2
    rw [← heq]
    exact hne
  · intro m hmem
    simp only [deleteDoc, List.mem_filter] at hmem
    exact bne_iff_ne.mp hmem.2
  · intro doc hmem
    simp only [deleteDoc, List.mem_filter] at hmem
    exact bne_iff_ne.mp hmem.2

/-- C7 witness: the cascade theorem instantiated at the concrete store and its
only document. -/
theorem delete_witness :
    (∀ h ∈ search (deleteDoc demoStore "a") "acme" 5 none, h.docId ≠ "a") ∧
    (∀ fr ∈ (deleteDoc demoStore "a").fragments, fr.docId ≠ "a") ∧
    (∀ m ∈ (deleteDoc demoStore "a").entities, m.docId ≠ "a") ∧
    (∀ doc ∈ (deleteDoc demoStore "a").docs, doc.id ≠ "a") :=
  delete_cascades_and_search_never_returns_deleted demoStore "a" "acme" 5 none

/-- C8: `askAgentic` and `askAgenticStream` default `max_iterations` to 5 when
the caller omits it, the default is positive, and every in-repo call site
(`App.handleSearch`, `ChatInterface.handleSubmit`) omits the argument, so the
requests the program issues always carry the positive value 5. -/
theorem ask_agentic_default_five (q : String) :
    (askAgenticRequest q none).maxIterations = 5 ∧
    (askAgenticStreamRequest q none).maxIterations = 5 ∧
    0 < (askAgenticRequest q none).maxIterations ∧
    (appHandleSearchRequest q).maxIterations = 5 ∧
    (chatAskRequest q).maxIterations = 5 ∧
    0 < (appHandleSearchRequest q).maxIterations ∧
    0 < (chatAskRequest q).maxIterations := by
  refine ⟨rfl, rfl, ?_, rfl, rfl, ?_, ?_⟩
  all_goals show (0 : Int) < 5
  all_goals decide

/-- C9: one accepted chat submission (non-empty trimmed input, not already
loading) appends exactly one user message followed by exactly one assistant
message — the answer on success, the error text on failure, via
`chatAssistantMessage` — and the previous message list is preserved as a
prefix: nothing is removed or modified. -/
theorem chat_submit_appends_user_then_assistant (st : ChatState) (now : Nat)
    (result : Except Unit AskResult)
    (hinput : (jsTrim st.inputValue).data.isEmpty = false)
    (hload : st.isLoading = false) :
    (handleChatSubmit st now result).messages
      = st.messages ++ [chatUserMessage st now, chatAssistantMessage now result] ∧
    ∃ t, (handleChatSubmit st now result).messages = st.messages ++ t := by
  have hmain : (handleChatSubmit st now result).messages
      = st.messages ++ [chatUserMessage st now, chatAssistantMessage now result] := by
    unfold handleChatSubmit chatAfterReply chatAfterSend
    simp [hinput, hload]
  exact ⟨hmain, ⟨_, hmain⟩⟩

/-- C9 witness: the append theorem instantiated at a concrete state and a
rejected request, exercising the error-path assistant message (the chat error
text). -/
theorem chat_submit_witness :
    (handleChatSubmit demoChatState 7 (.error ())).messages
      = demoChatState.messages
        ++ [chatUserMessage demoChatState 7, chatAssistantMessage 7 (.error ())] ∧
    ∃ t, (handleChatSubmit demoChatState 7 (.error ())).messages
      = demoChatState.messages ++ t :=
  chat_submit_appends_user_then_assistant demoChatState 7 (.error ())
    (by decide) rfl

/-- C10: for every decode behaviour, `readTextWithEncodingDetection` returns
the first decode in the fixed candidate order `utf-8, windows-1251, cp1251,
koi8-r, iso-8859-1` that is non-empty and whose suspicious-character ratio is
below 0.05, and the UTF-8 decode as fallback when no encoding qualifies —
exactly the claim's description `encodingDetectionSpec`. -/
theorem encoding_detection_first_qualifying_else_utf8
    (decode : String → Option (List Char)) :
    readTextWithEncodingDetection decode = encodingDetectionSpec decode := by
  unfold readTextWithEncodingDetection encodingDetectionSpec
  exact detectLoop_eq_first_qualifying decode encodingCandidates

end MultiAgentRag
